import Mathlib

/-
  Verification of the session-scoped RAG service (src/rag-service/main.py).

  The development shallowly embeds the pure logic of the service:
  * the text normalizers `normalize_spaced_text` and `normalize_answer`
    (regex substitutions modelled as explicit character-list scanners),
  * the Groq-backed `generate_response` (the remote API is an external
    collaborator, modelled as a function from prompt and token budget to a
    timed result),
  * the thread-safe session store (`get_session_vectorstore`,
    `set_session_vectorstore`, `clear_session`); each operation runs under
    `sessions_lock`, so it is modelled as a single transformation of the
    store state,
  * the endpoint handlers `ask_question`, `summarize_pdf`, `compare_pdfs`,
    `reset_session`.

  Strings are modelled through their character lists.  The regex character
  classes are the ASCII classes used by the patterns in the source:
  `[A-Za-z]` and the ASCII portions of `\w` and `\s`.
-/

set_option maxRecDepth 40000

/-! ## Character classes of the regex patterns in main.py -/

/-- `[A-Za-z]` of the pattern in `normalize_spaced_text`. -/
def isLetterChar (c : Char) : Bool := c.isAlpha

/-- A word character for `\b` (Python `\w`, ASCII part). -/
def isWordChar (c : Char) : Bool := c.isAlphanum || c == '_'

/-- `\b` holds after the final matched letter: end of input or a non-word
character follows. -/
def nonWordOrEnd : List Char → Bool
  | [] => true
  | c :: _ => !isWordChar c

/-! ## The substitution `re.sub(r'\b(?:[A-Za-z] ){2,}[A-Za-z]\b', collapse, text)`

The greedy group `(?:[A-Za-z] ){2,}` takes the maximal number of
letter-space pairs (`chainLen`); the engine then backtracks the repetition
count `r` downwards until `[A-Za-z]\b` succeeds at offset `2*r`
(`validAt`, `tryReps`).  On a match of `r+1` letters the matched text has
its spaces removed (`takeLetters`) and scanning resumes after the match,
whose last character is a letter, hence a word character. -/

/-- Maximal number of repetitions of `[A-Za-z] ` (a letter then one space)
at the head of the list. -/
def chainLen : List Char → Nat
  | a :: b :: rest => if b == ' ' && isLetterChar a then chainLen rest + 1 else 0
  | _ => 0

/-- After `r` letter-space pairs, does `[A-Za-z]\b` succeed? -/
def validAt (l : List Char) (r : Nat) : Bool :=
  match l.drop (2 * r) with
  | [] => false
  | c :: rest => isLetterChar c && nonWordOrEnd rest

/-- Backtracking of the greedy repetition: try `m` pairs, then `m-1`, ...,
down to the minimum `2` required by `{2,}`. -/
def tryReps (l : List Char) : Nat → Option Nat
  | 0 => none
  | 1 => none
  | r + 2 => if validAt l (r + 2) then some (r + 2) else tryReps l (r + 1)

/-- The `r+1` letters of a match with `r` pairs: the characters at offsets
`0, 2, ..., 2*r` (the replacement `match.group(0).replace(" ", "")`). -/
def takeLetters : Nat → List Char → List Char
  | 0, c :: _ => [c]
  | r + 1, c :: _ :: rest => c :: takeLetters r rest
  | _, _ => []

/-- One scan of `re.sub` over the input.  `prev` records whether the
character before the current position is a word character (for `\b`);
a match can only start at a letter preceded by a non-word position.
The fuel is an upper bound on the number of steps; each step consumes at
least one character, so fuel `l.length` computes the substitution. -/
def subSpacedAux : Nat → Bool → List Char → List Char
  | 0, _, l => l
  | _ + 1, _, [] => []
  | fuel + 1, prev, c :: rest =>
    if isLetterChar c && !prev then
      match tryReps (c :: rest) (chainLen (c :: rest)) with
      | some r =>
          takeLetters r (c :: rest) ++ subSpacedAux fuel true ((c :: rest).drop (2 * r + 1))
      | none => c :: subSpacedAux fuel (isWordChar c) rest
    else c :: subSpacedAux fuel (isWordChar c) rest

/-- The substitution on character lists (fuel instantiated). -/
def reSubSpaced (prev : Bool) (l : List Char) : List Char :=
  subSpacedAux l.length prev l

/-- `normalize_spaced_text` of main.py:
`re.sub(r'\b(?:[A-Za-z] ){2,}[A-Za-z]\b', fix_spaced_word, text)`. -/
def normalize_spaced_text (s : String) : String :=
  String.mk (reSubSpaced false s.data)

/-- Does the spaced-run pattern match at the current position? -/
def matchHere (prev : Bool) (l : List Char) : Bool :=
  match l with
  | [] => false
  | c :: _ => isLetterChar c && !prev && (tryReps l (chainLen l)).isSome

/-- No position of `l` (scanned with initial boundary context `prev`)
starts a match of the spaced-run pattern. -/
def noMatchAll : Bool → List Char → Bool
  | _, [] => true
  | prev, c :: rest => !matchHere prev (c :: rest) && noMatchAll (isWordChar c) rest

example : normalize_spaced_text "I B M" = "IBM" := by decide
example : normalize_spaced_text "hello world" = "hello world" := by decide
example : normalize_spaced_text "J A I N I   S O L A N K I" = "JAINI   SOLANKI" := by decide
example : normalize_spaced_text "a b c d ef" = "abcd ef" := by decide
example : normalize_spaced_text "x-a b c" = "x-abc" := by decide
example : normalize_spaced_text "1 a b c 2" = "1 abc 2" := by decide
example : normalize_spaced_text "a b c3" = "a b c3" := by decide

/-! ## Basic facts about the scanner -/

lemma subSpacedAux_nil (f : Nat) (prev : Bool) : subSpacedAux f prev [] = [] := by
  cases f <;> rfl

lemma matchHere_cons (prev : Bool) (c : Char) (rest : List Char) :
    matchHere prev (c :: rest)
      = (isLetterChar c && !prev && (tryReps (c :: rest) (chainLen (c :: rest))).isSome) := rfl

lemma noMatchAll_cons (prev : Bool) (c : Char) (rest : List Char) :
    noMatchAll prev (c :: rest)
      = (!matchHere prev (c :: rest) && noMatchAll (isWordChar c) rest) := rfl

lemma chainLen_cons_cons (a b : Char) (l : List Char) :
    chainLen (a :: b :: l) = if b == ' ' && isLetterChar a then chainLen l + 1 else 0 := rfl

lemma chainLen_not_letter (c : Char) (zs : List Char) (h : isLetterChar c = false) :
    chainLen (c :: zs) = 0 := by
  cases zs with
  | nil => rfl
  | cons b t => rw [chainLen_cons_cons, h]; simp

lemma chainLen_snd_not_space (a b : Char) (zs : List Char) (h : b ≠ ' ') :
    chainLen (a :: b :: zs) = 0 := by
  rw [chainLen_cons_cons]
  have : (b == ' ') = false := by simpa using h
  rw [this]; simp

lemma isLetter_ne_space (c : Char) (h : isLetterChar c = true) : c ≠ ' ' := by
  intro he; subst he; simp [isLetterChar] at h

lemma isWordChar_of_letter (c : Char) (h : isLetterChar c = true) : isWordChar c = true := by
  simp only [isWordChar, Bool.or_eq_true, Char.isAlphanum]
  left; left; exact h

lemma validAt_cons_cons (a b : Char) (l : List Char) (r : Nat) :
    validAt (a :: b :: l) (r + 1) = validAt l r := by
  unfold validAt
  rw [show 2 * (r + 1) = 2 * r + 1 + 1 by ring]
  rw [List.drop_succ_cons, List.drop_succ_cons]

lemma validAt_zero_cons (c : Char) (rest : List Char) :
    validAt (c :: rest) 0 = (isLetterChar c && nonWordOrEnd rest) := rfl

lemma tryReps_zero (l : List Char) : tryReps l 0 = none := rfl

lemma tryReps_one (l : List Char) : tryReps l 1 = none := rfl

lemma tryReps_some : ∀ (m : Nat) (l : List Char) (r : Nat), tryReps l m = some r →
    2 ≤ r ∧ r ≤ m ∧ validAt l r = true := by
  intro m
  induction m with
  | zero => intro l r h; simp [tryReps] at h
  | succ k ih =>
    intro l r h
    match k, h with
    | 0, h => simp [tryReps] at h
    | (j + 1), h =>
      rw [tryReps] at h
      by_cases hv : validAt l (j + 2) = true
      · rw [if_pos hv] at h
        obtain rfl : j + 2 = r := by injection h
        exact ⟨by omega, by omega, hv⟩
      · rw [if_neg hv] at h
        obtain ⟨h1, h2, h3⟩ := ih l r h
        exact ⟨h1, by omega, h3⟩

lemma tryReps_none_valid : ∀ (m : Nat) (l : List Char), tryReps l m = none →
    ∀ r, 2 ≤ r → r ≤ m → validAt l r = false := by
  intro m
  induction m with
  | zero => intro l _ r h2 hm; omega
  | succ k ih =>
    intro l h r h2 hm
    match k, h with
    | 0, h => omega
    | (j + 1), h =>
      rw [tryReps] at h
      by_cases hv : validAt l (j + 2) = true
      · rw [if_pos hv] at h; exact absurd h (by simp)
      · rw [if_neg hv] at h
        rcases Nat.lt_or_ge r (j + 2) with hlt | hge
        · exact ih l h r h2 (by omega)
        · have : r = j + 2 := by omega
          subst this
          exact Bool.not_eq_true _ ▸ (by simpa using hv)

lemma chain_validAt : ∀ (r : Nat) (l : List Char), r < chainLen l → validAt l r = true := by
  intro r
  induction r with
  | zero =>
    intro l h
    match l, h with
    | a :: b :: t, h =>
      rw [chainLen_cons_cons] at h
      by_cases hb : (b == ' ' && isLetterChar a) = true
      · have hb' : b = ' ' := by
          have := (Bool.and_eq_true _ _).mp hb
          simpa using this.1
        have ha : isLetterChar a = true := ((Bool.and_eq_true _ _).mp hb).2
        rw [validAt_zero_cons, ha]
        subst hb'
        simp [nonWordOrEnd, isWordChar]
      · rw [if_neg hb] at h; omega
  | succ r ih =>
    intro l h
    match l, h with
    | a :: b :: t, h =>
      rw [chainLen_cons_cons] at h
      by_cases hb : (b == ' ' && isLetterChar a) = true
      · rw [validAt_cons_cons]
        rw [if_pos hb] at h
        exact ih t (by omega)
      · rw [if_neg hb] at h; omega

lemma chainLen_le_two_of_none (l : List Char)
    (h : tryReps l (chainLen l) = none) : chainLen l ≤ 2 := by
  by_contra hc
  have h3 : 2 < chainLen l := by omega
  have hv : validAt l 2 = true := chain_validAt 2 l h3
  have := tryReps_none_valid (chainLen l) l h 2 (by omega) (by omega)
  rw [hv] at this; exact absurd this (by simp)

lemma tryReps_two (l : List Char) (h : validAt l 2 = false) : tryReps l 2 = none := by
  show tryReps l (0 + 2) = none
  rw [tryReps, if_neg (by simp [h]), tryReps]

lemma isWordChar_space : isWordChar ' ' = false := by decide

lemma isLetterChar_space : isLetterChar ' ' = false := by decide

lemma ne_space_of_word (c : Char) (h : isWordChar c = true) : c ≠ ' ' := by
  intro he; subst he; rw [isWordChar_space] at h; exact absurd h (by simp)

lemma chainLen_cons_space (c : Char) (t : List Char) (hc : isLetterChar c = true) :
    chainLen (c :: ' ' :: t) = chainLen t + 1 := by
  rw [chainLen_cons_cons]; simp [hc]

lemma validAt_nil (r : Nat) : validAt [] r = false := by
  unfold validAt; rw [List.drop_nil]

lemma takeLetters_spec : ∀ (r : Nat) (l : List Char), r ≤ chainLen l → validAt l r = true →
    (takeLetters r l).length = r + 1 ∧ ∀ x ∈ takeLetters r l, isLetterChar x = true := by
  intro r
  induction r with
  | zero =>
    intro l _ hv
    match l, hv with
    | c :: rest, hv =>
      rw [validAt_zero_cons] at hv
      have hc : isLetterChar c = true := ((Bool.and_eq_true _ _).mp hv).1
      refine ⟨rfl, ?_⟩
      intro x hx
      simp only [takeLetters, List.mem_singleton] at hx
      subst hx; exact hc
  | succ r ih =>
    intro l hr hv
    match l, hr, hv with
    | a :: b :: t, hr, hv =>
      rw [chainLen_cons_cons] at hr
      by_cases hb : (b == ' ' && isLetterChar a) = true
      · rw [if_pos hb] at hr
        have ha : isLetterChar a = true := ((Bool.and_eq_true _ _).mp hb).2
        rw [validAt_cons_cons] at hv
        obtain ⟨hlen, hall⟩ := ih t (by omega) hv
        constructor
        · show (a :: takeLetters r t).length = r + 1 + 1
          simp [hlen]
        · intro x hx
          rcases List.mem_cons.mp hx with h | h
          · subst h; exact ha
          · exact hall x h
      · rw [if_neg hb] at hr; omega

/-! ## Fuel irrelevance and unfolding equations for the scanner -/

lemma subSpacedAux_fuel : ∀ (n f g : Nat) (prev : Bool) (l : List Char),
    l.length ≤ n → l.length ≤ f → l.length ≤ g →
    subSpacedAux f prev l = subSpacedAux g prev l := by
  intro n
  induction n with
  | zero =>
    intro f g prev l hn _ _
    have hl : l = [] := List.length_eq_zero.mp (Nat.le_zero.mp hn)
    subst hl
    rw [subSpacedAux_nil, subSpacedAux_nil]
  | succ n ih =>
    intro f g prev l hn hf hg
    cases l with
    | nil => rw [subSpacedAux_nil, subSpacedAux_nil]
    | cons c rest =>
      cases f with
      | zero => exfalso; simp at hf
      | succ f' =>
        cases g with
        | zero => exfalso; simp at hg
        | succ g' =>
          have hrn : rest.length ≤ n := by simp at hn; omega
          have hrf : rest.length ≤ f' := by simp at hf; omega
          have hrg : rest.length ≤ g' := by simp at hg; omega
          simp only [subSpacedAux]
          by_cases hguard : (isLetterChar c && !prev) = true
          · rw [if_pos hguard, if_pos hguard]
            cases htr : tryReps (c :: rest) (chainLen (c :: rest)) with
            | none =>
              show c :: subSpacedAux f' (isWordChar c) rest
                  = c :: subSpacedAux g' (isWordChar c) rest
              rw [ih f' g' (isWordChar c) rest hrn hrf hrg]
            | some r =>
              show takeLetters r (c :: rest) ++ subSpacedAux f' true ((c :: rest).drop (2 * r + 1))
                  = takeLetters r (c :: rest) ++ subSpacedAux g' true ((c :: rest).drop (2 * r + 1))
              have hd : ((c :: rest).drop (2 * r + 1)).length ≤ rest.length := by
                simp only [List.length_drop, List.length_cons]; omega
              rw [ih f' g' true ((c :: rest).drop (2 * r + 1))
                    (le_trans hd hrn) (le_trans hd hrf) (le_trans hd hrg)]
          · rw [if_neg hguard, if_neg hguard]
            rw [ih f' g' (isWordChar c) rest hrn hrf hrg]

lemma reSubSpaced_nil (prev : Bool) : reSubSpaced prev [] = [] := rfl

lemma reSubSpaced_cons_neg (prev : Bool) (c : Char) (rest : List Char)
    (h : (isLetterChar c && !prev) = false ∨ tryReps (c :: rest) (chainLen (c :: rest)) = none) :
    reSubSpaced prev (c :: rest) = c :: reSubSpaced (isWordChar c) rest := by
  show subSpacedAux ((c :: rest).length) prev (c :: rest) = _
  simp only [List.length_cons]
  simp only [subSpacedAux]
  rcases h with h | h
  · rw [if_neg (by simp [h])]
    rfl
  · by_cases hguard : (isLetterChar c && !prev) = true
    · rw [if_pos hguard, h]
      rfl
    · rw [if_neg hguard]
      rfl

lemma reSubSpaced_cons_pos (prev : Bool) (c : Char) (rest : List Char) (r : Nat)
    (hguard : (isLetterChar c && !prev) = true)
    (htr : tryReps (c :: rest) (chainLen (c :: rest)) = some r) :
    reSubSpaced prev (c :: rest)
      = takeLetters r (c :: rest) ++ reSubSpaced true ((c :: rest).drop (2 * r + 1)) := by
  show subSpacedAux ((c :: rest).length) prev (c :: rest) = _
  simp only [List.length_cons]
  simp only [subSpacedAux]
  rw [if_pos hguard, htr]
  show takeLetters r (c :: rest) ++ subSpacedAux rest.length true ((c :: rest).drop (2 * r + 1)) = _
  congr 1
  exact subSpacedAux_fuel ((c :: rest).drop (2 * r + 1)).length rest.length
    ((c :: rest).drop (2 * r + 1)).length true ((c :: rest).drop (2 * r + 1))
    (le_refl _) (by simp only [List.length_drop, List.length_cons]; omega) (le_refl _)

/-! ## The scanner is the identity when no position matches -/

lemma reSubSpaced_of_noMatchAll : ∀ (l : List Char) (prev : Bool),
    noMatchAll prev l = true → reSubSpaced prev l = l := by
  intro l
  induction l with
  | nil => intro prev _; rfl
  | cons c rest ih =>
    intro prev h
    rw [noMatchAll_cons] at h
    obtain ⟨h1, h2⟩ := (Bool.and_eq_true _ _).mp h
    rw [matchHere_cons] at h1
    by_cases hguard : (isLetterChar c && !prev) = true
    · have hnone : tryReps (c :: rest) (chainLen (c :: rest)) = none := by
        cases htr : tryReps (c :: rest) (chainLen (c :: rest)) with
        | none => rfl
        | some r => rw [hguard, htr] at h1; simp at h1
      rw [reSubSpaced_cons_neg prev c rest (Or.inr hnone), ih (isWordChar c) h2]
    · have hg : (isLetterChar c && !prev) = false := by
        cases hx : (isLetterChar c && !prev) with
        | false => rfl
        | true => exact absurd hx hguard
      rw [reSubSpaced_cons_neg prev c rest (Or.inl hg), ih (isWordChar c) h2]

/-! ## The scanner's output has no matches -/

lemma noMatchAll_letters_true : ∀ (xs ys : List Char),
    (∀ x ∈ xs, isLetterChar x = true) → noMatchAll true ys = true →
    noMatchAll true (xs ++ ys) = true := by
  intro xs
  induction xs with
  | nil => intro ys _ h; simpa using h
  | cons x xs ih =>
    intro ys hall hys
    have hx : isLetterChar x = true := hall x (List.mem_cons_self x xs)
    rw [List.cons_append, noMatchAll_cons]
    apply (Bool.and_eq_true _ _).mpr
    refine ⟨?_, ?_⟩
    · rw [matchHere_cons]; simp
    · rw [isWordChar_of_letter x hx]
      exact ih ys (fun y hy => hall y (List.mem_cons_of_mem _ hy)) hys

lemma noMatchAll_block (x1 x2 : Char) (xs ys : List Char) (prev : Bool)
    (h1 : isLetterChar x1 = true) (h2 : isLetterChar x2 = true)
    (hall : ∀ x ∈ xs, isLetterChar x = true) (hys : noMatchAll true ys = true) :
    noMatchAll prev ((x1 :: x2 :: xs) ++ ys) = true := by
  rw [List.cons_append, List.cons_append, noMatchAll_cons]
  apply (Bool.and_eq_true _ _).mpr
  refine ⟨?_, ?_⟩
  · rw [matchHere_cons]
    rw [chainLen_snd_not_space x1 x2 (xs ++ ys) (isLetter_ne_space x2 h2), tryReps_zero]
    simp
  · rw [isWordChar_of_letter x1 h1]
    have hx2 : x2 :: (xs ++ ys) = (x2 :: xs) ++ ys := rfl
    rw [hx2]
    refine noMatchAll_letters_true (x2 :: xs) ys ?_ hys
    intro y hy
    rcases List.mem_cons.mp hy with h | h
    · subst h; exact h2
    · exact hall y h

/-! ## Key step: a position that failed to match keeps failing after the
tail has been rescanned (the rescan cannot create a match at the head) -/

lemma validAt_two_cons4 (a b c d : Char) (l : List Char) :
    validAt (a :: b :: c :: d :: l) 2 = validAt l 0 := by
  rw [show (2 : Nat) = 1 + 1 from rfl, validAt_cons_cons,
    show (1 : Nat) = 0 + 1 from rfl, validAt_cons_cons]

lemma crux_head : ∀ (c : Char) (rest : List Char),
    isLetterChar c = true →
    tryReps (c :: rest) (chainLen (c :: rest)) = none →
    tryReps (c :: reSubSpaced true rest) (chainLen (c :: reSubSpaced true rest)) = none := by
  intro c rest hc hnone
  cases rest with
  | nil => rw [reSubSpaced_nil]; rfl
  | cons d tail =>
    by_cases hd : d = ' '
    case neg =>
      rw [reSubSpaced_cons_neg true d tail (Or.inl (by simp))]
      rw [chainLen_snd_not_space c d _ hd]
      exact tryReps_zero _
    case pos =>
      subst hd
      rw [reSubSpaced_cons_neg true ' ' tail (Or.inl (by simp [isLetterChar_space]))]
      rw [isWordChar_space]
      cases tail with
      | nil =>
        rw [reSubSpaced_nil]
        rw [chainLen_cons_space c _ hc, show chainLen ([] : List Char) = 0 from rfl]
        exact tryReps_one _
      | cons e rest2 =>
        cases he : isLetterChar e with
        | false =>
          rw [reSubSpaced_cons_neg false e rest2 (Or.inl (by simp [he]))]
          rw [chainLen_cons_space c _ hc, chainLen_not_letter e _ he]
          exact tryReps_one _
        | true =>
          cases rest2 with
          | nil =>
            rw [reSubSpaced_cons_neg false e []
              (Or.inr (by rw [show chainLen [e] = 0 from rfl]; exact tryReps_zero _))]
            rw [reSubSpaced_nil]
            rw [chainLen_cons_space c _ hc, show chainLen [e] = 0 from rfl]
            exact tryReps_one _
          | cons f rest3 =>
            by_cases hf : f = ' '
            case neg =>
              have hef : chainLen (e :: f :: rest3) = 0 := chainLen_snd_not_space e f rest3 hf
              rw [reSubSpaced_cons_neg false e (f :: rest3)
                (Or.inr (by rw [hef]; exact tryReps_zero _))]
              rw [isWordChar_of_letter e he]
              rw [reSubSpaced_cons_neg true f rest3 (Or.inl (by simp))]
              rw [chainLen_cons_space c _ hc, chainLen_snd_not_space e f _ hf]
              exact tryReps_one _
            case pos =>
              subst hf
              have hle := chainLen_le_two_of_none _ hnone
              rw [chainLen_cons_space c _ hc, chainLen_cons_space e _ he] at hle
              have hcl3 : chainLen rest3 = 0 := by omega
              have hnone2 : tryReps (c :: ' ' :: e :: ' ' :: rest3) 2 = none := by
                have h2 : chainLen (c :: ' ' :: e :: ' ' :: rest3) = 2 := by
                  rw [chainLen_cons_space c _ hc, chainLen_cons_space e _ he, hcl3]
                rw [← h2]; exact hnone
              have hval : validAt rest3 0 = false := by
                have hv2 := tryReps_none_valid 2 _ hnone2 2 (by omega) (by omega)
                rwa [validAt_two_cons4] at hv2
              rw [reSubSpaced_cons_neg false e (' ' :: rest3)
                (Or.inr (by rw [chainLen_cons_space e _ he, hcl3]; exact tryReps_one _))]
              rw [isWordChar_of_letter e he]
              rw [reSubSpaced_cons_neg true ' ' rest3 (Or.inl (by simp [isLetterChar_space]))]
              rw [isWordChar_space]
              cases rest3 with
              | nil =>
                rw [reSubSpaced_nil]
                rw [chainLen_cons_space c _ hc, chainLen_cons_space e _ he,
                  show chainLen ([] : List Char) = 0 from rfl]
                apply tryReps_two
                rw [validAt_two_cons4]
                exact validAt_nil 0
              | cons g r4 =>
                cases hg : isLetterChar g with
                | false =>
                  rw [reSubSpaced_cons_neg false g r4 (Or.inl (by simp [hg]))]
                  rw [chainLen_cons_space c _ hc, chainLen_cons_space e _ he,
                    chainLen_not_letter g _ hg]
                  apply tryReps_two
                  rw [validAt_two_cons4, validAt_zero_cons, hg]
                  simp
                | true =>
                  rw [validAt_zero_cons, hg] at hval
                  simp only [Bool.true_and] at hval
                  cases r4 with
                  | nil => simp [nonWordOrEnd] at hval
                  | cons h5 r5 =>
                    have hw : isWordChar h5 = true := by
                      simp only [nonWordOrEnd, Bool.not_eq_false'] at hval
                      exact hval
                    have hns : h5 ≠ ' ' := ne_space_of_word h5 hw
                    have hch : chainLen (g :: h5 :: r5) = 0 := chainLen_snd_not_space g h5 r5 hns
                    rw [reSubSpaced_cons_neg false g (h5 :: r5)
                      (Or.inr (by rw [hch]; exact tryReps_zero _))]
                    rw [isWordChar_of_letter g hg]
                    rw [reSubSpaced_cons_neg true h5 r5 (Or.inl (by simp))]
                    rw [chainLen_cons_space c _ hc, chainLen_cons_space e _ he,
                      chainLen_snd_not_space g h5 _ hns]
                    apply tryReps_two
                    rw [validAt_two_cons4, validAt_zero_cons]
                    simp [nonWordOrEnd, hw]

/-! ## The output of the scanner contains no matches -/

lemma noMatchAll_reSubSpaced : ∀ (n : Nat) (l : List Char) (prev : Bool), l.length ≤ n →
    noMatchAll prev (reSubSpaced prev l) = true := by
  intro n
  induction n with
  | zero =>
    intro l prev hn
    have hl : l = [] := List.length_eq_zero.mp (Nat.le_zero.mp hn)
    subst hl; rfl
  | succ n ih =>
    intro l prev hn
    cases l with
    | nil => rfl
    | cons c rest =>
      have hrn : rest.length ≤ n := by simp at hn; omega
      cases hguard : (isLetterChar c && !prev) with
      | false =>
        rw [reSubSpaced_cons_neg prev c rest (Or.inl hguard), noMatchAll_cons]
        apply (Bool.and_eq_true _ _).mpr
        refine ⟨?_, ih rest (isWordChar c) hrn⟩
        rw [matchHere_cons, hguard]
        simp
      | true =>
        obtain ⟨hc, hp⟩ := (Bool.and_eq_true _ _).mp hguard
        cases htr : tryReps (c :: rest) (chainLen (c :: rest)) with
        | none =>
          rw [reSubSpaced_cons_neg prev c rest (Or.inr htr), noMatchAll_cons]
          apply (Bool.and_eq_true _ _).mpr
          refine ⟨?_, ih rest (isWordChar c) hrn⟩
          rw [matchHere_cons]
          rw [isWordChar_of_letter c hc]
          rw [crux_head c rest hc htr]
          simp
        | some r =>
          rw [reSubSpaced_cons_pos prev c rest r hguard htr]
          obtain ⟨h2r, hrm, hval⟩ := tryReps_some _ _ _ htr
          obtain ⟨hlen, hletters⟩ := takeLetters_spec r (c :: rest) hrm hval
          have hys : noMatchAll true (reSubSpaced true ((c :: rest).drop (2 * r + 1))) = true := by
            apply ih
            simp only [List.length_drop, List.length_cons]
            omega
          cases hshape : takeLetters r (c :: rest) with
          | nil =>
            exfalso
            rw [hshape] at hlen
            simp only [List.length_nil] at hlen
            omega
          | cons x1 t1 =>
            cases t1 with
            | nil =>
              exfalso
              rw [hshape] at hlen
              simp only [List.length_cons, List.length_nil] at hlen
              omega
            | cons x2 xs =>
              rw [hshape] at hletters
              exact noMatchAll_block x1 x2 xs _ prev
                (hletters x1 (List.mem_cons_self _ _))
                (hletters x2 (List.mem_cons_of_mem _ (List.mem_cons_self _ _)))
                (fun x hx => hletters x
                  (List.mem_cons_of_mem _ (List.mem_cons_of_mem _ hx))) hys

/-! ## Claim C4 and Claim C8 -/

/-- C4: `normalize_spaced_text` is idempotent: for every input string `x`,
`normalize_spaced_text (normalize_spaced_text x) = normalize_spaced_text x`. -/
theorem normalize_spaced_text_idempotent (s : String) :
    normalize_spaced_text (normalize_spaced_text s) = normalize_spaced_text s := by
  show String.mk (reSubSpaced false (String.mk (reSubSpaced false s.data)).data)
      = String.mk (reSubSpaced false s.data)
  have hdata : (String.mk (reSubSpaced false s.data)).data = reSubSpaced false s.data := rfl
  rw [hdata]
  rw [reSubSpaced_of_noMatchAll (reSubSpaced false s.data) false
    (noMatchAll_reSubSpaced s.data.length s.data false (le_refl _))]

/-- C8: `normalize_spaced_text` collapses every run of 3+ single-letter
words separated by single spaces into one joined word (`"I B M"` becomes
`"IBM"`, and no position of its output still matches the spaced-run
pattern), and leaves every input containing no such run unchanged; in
particular `normalize_spaced_text "hello world" = "hello world"`. -/
theorem normalize_spaced_text_collapses_runs :
    normalize_spaced_text "I B M" = "IBM"
    ∧ (∀ s : String, noMatchAll false s.data = true → normalize_spaced_text s = s)
    ∧ (∀ s : String, noMatchAll false (normalize_spaced_text s).data = true)
    ∧ normalize_spaced_text "hello world" = "hello world" := by
  refine ⟨by decide, ?_, ?_, by decide⟩
  · intro s h
    show String.mk (reSubSpaced false s.data) = s
    rw [reSubSpaced_of_noMatchAll s.data false h]
  · intro s
    show noMatchAll false (String.mk (reSubSpaced false s.data)).data = true
    exact noMatchAll_reSubSpaced s.data.length s.data false (le_refl _)

/-- Witness for C8: the no-run hypothesis of the second conjunct holds at
the concrete input `"hello world"`, and the theorem yields the fixed point. -/
theorem normalize_spaced_text_collapses_runs_witness :
    noMatchAll false "hello world".data = true
    ∧ normalize_spaced_text "hello world" = "hello world" :=
  ⟨by decide, normalize_spaced_text_collapses_runs.2.1 "hello world" (by decide)⟩

/-! ## The remaining stages of `normalize_answer` -/

/-- Horizontal whitespace of the pattern `[ \t]{2,}`. -/
def isHSpace (c : Char) : Bool := c == ' ' || c == '\t'

/-- `re.sub(r'[ \t]{2,}', ' ', text)`: each maximal run of two or more
horizontal whitespace characters is replaced by a single space (a lone
space or tab is kept).  Fuel as in `subSpacedAux`. -/
def collapseSpacesAux : Nat → List Char → List Char
  | 0, l => l
  | _ + 1, [] => []
  | _ + 1, [c] => [c]
  | fuel + 1, c :: d :: rest2 =>
    if isHSpace c && isHSpace d then ' ' :: collapseSpacesAux fuel (rest2.dropWhile isHSpace)
    else c :: collapseSpacesAux fuel (d :: rest2)

def collapseSpaces (l : List Char) : List Char := collapseSpacesAux l.length l

def isNLChar (c : Char) : Bool := c == '\n'

/-- `re.sub(r'\n{3,}', '\n\n', text)`: each maximal run of three or more
newlines is replaced by exactly two. -/
def collapseNLAux : Nat → List Char → List Char
  | 0, l => l
  | _ + 1, [] => []
  | _ + 1, [c] => [c]
  | _ + 1, [c, d] => [c, d]
  | fuel + 1, c :: d :: e :: rest3 =>
    if isNLChar c && isNLChar d && isNLChar e then
      '\n' :: '\n' :: collapseNLAux fuel (rest3.dropWhile isNLChar)
    else c :: collapseNLAux fuel (d :: e :: rest3)

def collapseNewlines (l : List Char) : List Char := collapseNLAux l.length l

/-- Python `\s` and the default character set of `str.strip()` (ASCII). -/
def isPySpace (c : Char) : Bool :=
  c == ' ' || c == '\t' || c == '\n' || c == '\r' || c == '\x0b' || c == '\x0c'

/-- Case-insensitive prefix test (`re.IGNORECASE`, ASCII case folding). -/
def startsWithCI : List Char → List Char → Bool
  | [], _ => true
  | _ :: _, [] => false
  | p :: ps, c :: cs => (c.toLower == p.toLower) && startsWithCI ps cs

/-- The `[^:]*:` part of `Answer[^:]*:`: consume any non-colon characters
and the first colon; `none` when no colon exists (the branch fails). -/
def afterFirstColon : List Char → Option (List Char)
  | [] => none
  | c :: rest => if c == ':' then some rest else afterFirstColon rest

/-- The anchored alternation `^(Answer[^:]*:|Context:|Question:)`,
case-insensitive, tried in the pattern's order; returns what follows the
matched label. -/
def matchLabel (l : List Char) : Option (List Char) :=
  match (if startsWithCI "answer".data l then afterFirstColon (l.drop 6) else none) with
  | some rest => some rest
  | none =>
    if startsWithCI "context:".data l then some (l.drop 8)
    else if startsWithCI "question:".data l then some (l.drop 9)
    else none

/-- `re.sub(r'^(Answer[^:]*:|Context:|Question:)\s*', '', text, flags=re.IGNORECASE)`:
the pattern is anchored at the start of the string (no `re.MULTILINE`), so
at most one leading label and its trailing whitespace are removed per
application. -/
def stripLabel (l : List Char) : List Char :=
  match matchLabel l with
  | some rest => rest.dropWhile isPySpace
  | none => l

/-- `str.rstrip()` on a character list. -/
def rstripAux : List Char → List Char
  | [] => []
  | c :: rest =>
    match rstripAux rest with
    | [] => if isPySpace c then [] else [c]
    | d :: t => c :: d :: t

/-- Python `str.strip()`. -/
def pyStrip (l : List Char) : List Char := rstripAux (l.dropWhile isPySpace)

def pyStripStr (s : String) : String := String.mk (pyStrip s.data)

/-- `normalize_answer` of main.py on character lists: residual spaced-text
repair, one anchored label strip, horizontal-whitespace collapse, newline
collapse, then `.strip()`. -/
def answerList (l : List Char) : List Char :=
  pyStrip (collapseNewlines (collapseSpaces (stripLabel (reSubSpaced false l))))

/-- `normalize_answer` of main.py. -/
def normalize_answer (s : String) : String := String.mk (answerList s.data)

example : normalize_answer "Answer: Context: hello" = "Context: hello" := by decide
example : normalize_answer "Context: hello" = "hello" := by decide
example : normalize_answer "a  b  c" = "a b c" := by decide
example : normalize_answer "a b c" = "abc" := by decide
example : normalize_answer "  x\n\n\n\ny  " = "x\n\ny" := by decide
example : normalize_answer "ANSWER IS:  42 " = "42" := by decide

/-! ## Run-freedom predicates for the collapse stages -/

def headIsHS : List Char → Bool
  | [] => false
  | c :: _ => isHSpace c

/-- No two adjacent horizontal whitespace characters. -/
def noHS2 : List Char → Bool
  | a :: b :: rest => (!(isHSpace a && isHSpace b)) && noHS2 (b :: rest)
  | _ => true

def headIsNL : List Char → Bool
  | [] => false
  | c :: _ => isNLChar c

def head2NL : List Char → Bool
  | a :: b :: _ => isNLChar a && isNLChar b
  | _ => false

/-- No three adjacent newlines. -/
def noNL3 : List Char → Bool
  | a :: b :: c :: rest => (!(isNLChar a && isNLChar b && isNLChar c)) && noNL3 (b :: c :: rest)
  | _ => true

def headIsPS : List Char → Bool
  | [] => false
  | c :: _ => isPySpace c

lemma noHS2_cons (x : Char) (l : List Char) :
    noHS2 (x :: l) = ((!(isHSpace x && headIsHS l)) && noHS2 l) := by
  cases l <;> simp [noHS2, headIsHS]

lemma noHS2_tail (x : Char) (l : List Char) (h : noHS2 (x :: l) = true) : noHS2 l = true := by
  rw [noHS2_cons] at h
  exact ((Bool.and_eq_true _ _).mp h).2

lemma head2NL_cons (x : Char) (l : List Char) :
    head2NL (x :: l) = (isNLChar x && headIsNL l) := by
  cases l <;> simp [head2NL, headIsNL]

lemma noNL3_cons (x : Char) (l : List Char) :
    noNL3 (x :: l) = ((!(isNLChar x && head2NL l)) && noNL3 l) := by
  cases l with
  | nil => simp [noNL3, head2NL]
  | cons b t => cases t <;> simp [noNL3, head2NL, Bool.and_assoc]

lemma noNL3_tail (x : Char) (l : List Char) (h : noNL3 (x :: l) = true) : noNL3 l = true := by
  rw [noNL3_cons] at h
  exact ((Bool.and_eq_true _ _).mp h).2

lemma head2NL_of_head_false (l : List Char) (h : headIsNL l = false) : head2NL l = false := by
  cases l with
  | nil => rfl
  | cons c t => rw [head2NL_cons]; simp [headIsNL] at h; simp [h]

/-! ## dropWhile facts -/

lemma dropWhile_length_le (p : Char → Bool) : ∀ (l : List Char),
    (l.dropWhile p).length ≤ l.length := by
  intro l
  induction l with
  | nil => simp [List.dropWhile]
  | cons c t ih =>
    cases h : p c with
    | true =>
      show (match p c with | true => List.dropWhile p t | false => c :: t).length ≤ (c :: t).length
      rw [h]; simp; omega
    | false =>
      show (match p c with | true => List.dropWhile p t | false => c :: t).length ≤ (c :: t).length
      rw [h]

lemma headIsHS_dropWhile (l : List Char) : headIsHS (l.dropWhile isHSpace) = false := by
  induction l with
  | nil => rfl
  | cons c t ih =>
    cases h : isHSpace c with
    | true =>
      show headIsHS (match isHSpace c with | true => List.dropWhile isHSpace t | false => c :: t) = false
      rw [h]; exact ih
    | false =>
      show headIsHS (match isHSpace c with | true => List.dropWhile isHSpace t | false => c :: t) = false
      rw [h]
      show isHSpace c = false
      exact h

lemma headIsNL_dropWhile (l : List Char) : headIsNL (l.dropWhile isNLChar) = false := by
  induction l with
  | nil => rfl
  | cons c t ih =>
    cases h : isNLChar c with
    | true =>
      show headIsNL (match isNLChar c with | true => List.dropWhile isNLChar t | false => c :: t) = false
      rw [h]; exact ih
    | false =>
      show headIsNL (match isNLChar c with | true => List.dropWhile isNLChar t | false => c :: t) = false
      rw [h]
      show isNLChar c = false
      exact h

lemma headIsPS_dropWhile (l : List Char) : headIsPS (l.dropWhile isPySpace) = false := by
  induction l with
  | nil => rfl
  | cons c t ih =>
    cases h : isPySpace c with
    | true =>
      show headIsPS (match isPySpace c with | true => List.dropWhile isPySpace t | false => c :: t) = false
      rw [h]; exact ih
    | false =>
      show headIsPS (match isPySpace c with | true => List.dropWhile isPySpace t | false => c :: t) = false
      rw [h]
      show isPySpace c = false
      exact h

lemma noHS2_dropWhile (p : Char → Bool) : ∀ (l : List Char), noHS2 l = true →
    noHS2 (l.dropWhile p) = true := by
  intro l
  induction l with
  | nil => intro _; rfl
  | cons c t ih =>
    intro h
    cases hp : p c with
    | true =>
      show noHS2 (match p c with | true => List.dropWhile p t | false => c :: t) = true
      rw [hp]; exact ih (noHS2_tail c t h)
    | false =>
      show noHS2 (match p c with | true => List.dropWhile p t | false => c :: t) = true
      rw [hp]; exact h

lemma noNL3_dropWhile (p : Char → Bool) : ∀ (l : List Char), noNL3 l = true →
    noNL3 (l.dropWhile p) = true := by
  intro l
  induction l with
  | nil => intro _; rfl
  | cons c t ih =>
    intro h
    cases hp : p c with
    | true =>
      show noNL3 (match p c with | true => List.dropWhile p t | false => c :: t) = true
      rw [hp]; exact ih (noNL3_tail c t h)
    | false =>
      show noNL3 (match p c with | true => List.dropWhile p t | false => c :: t) = true
      rw [hp]; exact h

/-! ## collapseSpaces: output has no double horizontal whitespace, and
inputs without one are fixed points -/

lemma collapseSpacesAux_headIsHS : ∀ (fuel : Nat) (l : List Char),
    headIsHS (collapseSpacesAux fuel l) = headIsHS l := by
  intro fuel l
  cases fuel with
  | zero => rfl
  | succ f =>
    cases l with
    | nil => rfl
    | cons c rest =>
      cases rest with
      | nil => rfl
      | cons d rest2 =>
        simp only [collapseSpacesAux]
        by_cases h : (isHSpace c && isHSpace d) = true
        · rw [if_pos h]
          have hc : isHSpace c = true := ((Bool.and_eq_true _ _).mp h).1
          show isHSpace ' ' = isHSpace c
          rw [hc]; rfl
        · rw [if_neg h]; rfl

lemma noHS2_collapseSpacesAux : ∀ (fuel : Nat) (l : List Char), l.length ≤ fuel →
    noHS2 (collapseSpacesAux fuel l) = true := by
  intro fuel
  induction fuel with
  | zero =>
    intro l h
    have hl : l = [] := List.length_eq_zero.mp (Nat.le_zero.mp h)
    subst hl; rfl
  | succ f ih =>
    intro l h
    cases l with
    | nil => rfl
    | cons c rest =>
      cases rest with
      | nil => rfl
      | cons d rest2 =>
        simp only [collapseSpacesAux]
        by_cases hcd : (isHSpace c && isHSpace d) = true
        · rw [if_pos hcd]
          rw [noHS2_cons]
          apply (Bool.and_eq_true _ _).mpr
          have hlen : (rest2.dropWhile isHSpace).length ≤ f := by
            have h1 := dropWhile_length_le isHSpace rest2
            simp at h; omega
          refine ⟨?_, ih _ hlen⟩
          rw [collapseSpacesAux_headIsHS, headIsHS_dropWhile]
          simp
        · rw [if_neg hcd]
          rw [noHS2_cons]
          apply (Bool.and_eq_true _ _).mpr
          have hr : (d :: rest2).length ≤ f := by simp at h ⊢; omega
          refine ⟨?_, ih _ hr⟩
          rw [collapseSpacesAux_headIsHS]
          show (!(isHSpace c && isHSpace d)) = true
          have hf : (isHSpace c && isHSpace d) = false := by
            cases hx : (isHSpace c && isHSpace d) with
            | false => rfl
            | true => exact absurd hx hcd
          rw [hf]; rfl

lemma collapseSpacesAux_of_noHS2 : ∀ (fuel : Nat) (l : List Char), noHS2 l = true →
    collapseSpacesAux fuel l = l := by
  intro fuel
  induction fuel with
  | zero => intro l _; rfl
  | succ f ih =>
    intro l h
    cases l with
    | nil => rfl
    | cons c rest =>
      cases rest with
      | nil => rfl
      | cons d rest2 =>
        simp only [collapseSpacesAux]
        rw [noHS2_cons] at h
        obtain ⟨h1, h2⟩ := (Bool.and_eq_true _ _).mp h
        have h1' : (!(isHSpace c && isHSpace d)) = true := h1
        have hcd : (isHSpace c && isHSpace d) = false := by
          cases hx : (isHSpace c && isHSpace d) with
          | false => rfl
          | true => rw [hx] at h1'; exact absurd h1' (by simp)
        rw [if_neg (by simp [hcd])]
        rw [ih (d :: rest2) h2]

/-! ## collapseNewlines: output has no triple newline; fixed points;
head preservation; it preserves the absence of double horizontal
whitespace -/

lemma collapseNLAux_nil (fuel : Nat) : collapseNLAux fuel [] = [] := by
  cases fuel <;> rfl

lemma headIsNL_collapseNLAux : ∀ (fuel : Nat) (l : List Char),
    headIsNL (collapseNLAux fuel l) = headIsNL l := by
  intro fuel l
  cases fuel with
  | zero => rfl
  | succ f =>
    cases l with
    | nil => rfl
    | cons c rest =>
      cases rest with
      | nil => rfl
      | cons d rest2 =>
        cases rest2 with
        | nil => rfl
        | cons e rest3 =>
          simp only [collapseNLAux]
          by_cases h : (isNLChar c && isNLChar d && isNLChar e) = true
          · rw [if_pos h]
            have hc : isNLChar c = true := (((Bool.and_eq_true _ _).mp h).1 |>
              fun hx => ((Bool.and_eq_true _ _).mp hx).1)
            show isNLChar '\n' = isNLChar c
            rw [hc]; rfl
          · rw [if_neg h]; rfl

lemma headIsHS_collapseNLAux : ∀ (fuel : Nat) (l : List Char),
    headIsHS (collapseNLAux fuel l) = headIsHS l := by
  intro fuel l
  cases fuel with
  | zero => rfl
  | succ f =>
    cases l with
    | nil => rfl
    | cons c rest =>
      cases rest with
      | nil => rfl
      | cons d rest2 =>
        cases rest2 with
        | nil => rfl
        | cons e rest3 =>
          simp only [collapseNLAux]
          by_cases h : (isNLChar c && isNLChar d && isNLChar e) = true
          · rw [if_pos h]
            have hc : isNLChar c = true := (((Bool.and_eq_true _ _).mp h).1 |>
              fun hx => ((Bool.and_eq_true _ _).mp hx).1)
            have hcn : c = '\n' := by simpa [isNLChar] using hc
            subst hcn; rfl
          · rw [if_neg h]; rfl

lemma head2NL_collapseNLAux : ∀ (fuel : Nat) (l : List Char),
    head2NL (collapseNLAux fuel l) = head2NL l := by
  intro fuel l
  cases fuel with
  | zero => rfl
  | succ f =>
    cases l with
    | nil => rfl
    | cons c rest =>
      cases rest with
      | nil => rfl
      | cons d rest2 =>
        cases rest2 with
        | nil => rfl
        | cons e rest3 =>
          simp only [collapseNLAux]
          by_cases h : (isNLChar c && isNLChar d && isNLChar e) = true
          · rw [if_pos h]
            have hcd : (isNLChar c && isNLChar d) = true := ((Bool.and_eq_true _ _).mp h).1
            have hc : isNLChar c = true := ((Bool.and_eq_true _ _).mp hcd).1
            have hd : isNLChar d = true := ((Bool.and_eq_true _ _).mp hcd).2
            rw [head2NL_cons, head2NL_cons]
            simp only [headIsNL]
            have hcn : c = '\n' := by simpa [isNLChar] using hc
            have hdn : d = '\n' := by simpa [isNLChar] using hd
            rw [hcn, hdn]
          · rw [if_neg h]
            rw [head2NL_cons, head2NL_cons, headIsNL_collapseNLAux]

lemma noNL3_collapseNLAux : ∀ (fuel : Nat) (l : List Char), l.length ≤ fuel →
    noNL3 (collapseNLAux fuel l) = true := by
  intro fuel
  induction fuel with
  | zero =>
    intro l h
    have hl : l = [] := List.length_eq_zero.mp (Nat.le_zero.mp h)
    subst hl; rfl
  | succ f ih =>
    intro l h
    cases l with
    | nil => rfl
    | cons c rest =>
      cases rest with
      | nil => rfl
      | cons d rest2 =>
        cases rest2 with
        | nil => rfl
        | cons e rest3 =>
          simp only [collapseNLAux]
          by_cases hcde : (isNLChar c && isNLChar d && isNLChar e) = true
          · rw [if_pos hcde]
            have hx : headIsNL (collapseNLAux f (rest3.dropWhile isNLChar)) = false := by
              rw [headIsNL_collapseNLAux, headIsNL_dropWhile]
            rw [noNL3_cons]
            apply (Bool.and_eq_true _ _).mpr
            constructor
            · rw [head2NL_cons, hx]
              simp
            · rw [noNL3_cons]
              apply (Bool.and_eq_true _ _).mpr
              constructor
              · rw [head2NL_of_head_false _ hx]
                simp
              · apply ih
                have h1 := dropWhile_length_le isNLChar rest3
                simp at h; omega
          · rw [if_neg hcde]
            rw [noNL3_cons]
            apply (Bool.and_eq_true _ _).mpr
            have hlen : (d :: e :: rest3).length ≤ f := by simp at h ⊢; omega
            refine ⟨?_, ih _ hlen⟩
            rw [head2NL_collapseNLAux]
            have hde : head2NL (d :: e :: rest3) = (isNLChar d && isNLChar e) := rfl
            rw [hde]
            have hfalse : (isNLChar c && (isNLChar d && isNLChar e)) = false := by
              cases hx : (isNLChar c && (isNLChar d && isNLChar e)) with
              | false => rfl
              | true =>
                exfalso
                apply hcde
                rw [← Bool.and_assoc] at hx
                exact hx
            rw [hfalse]; rfl

lemma collapseNLAux_of_noNL3 : ∀ (fuel : Nat) (l : List Char), noNL3 l = true →
    collapseNLAux fuel l = l := by
  intro fuel
  induction fuel with
  | zero => intro l _; rfl
  | succ f ih =>
    intro l h
    cases l with
    | nil => rfl
    | cons c rest =>
      cases rest with
      | nil => rfl
      | cons d rest2 =>
        cases rest2 with
        | nil => rfl
        | cons e rest3 =>
          simp only [collapseNLAux]
          have h' : ((!(isNLChar c && isNLChar d && isNLChar e))
              && noNL3 (d :: e :: rest3)) = true := h
          obtain ⟨h1, h2⟩ := (Bool.and_eq_true _ _).mp h'
          have hcde : (isNLChar c && isNLChar d && isNLChar e) = false := by
            cases hx : (isNLChar c && isNLChar d && isNLChar e) with
            | false => rfl
            | true => rw [hx] at h1; exact absurd h1 (by simp)
          rw [if_neg (by simp [hcde])]
          rw [ih (d :: e :: rest3) h2]

lemma noHS2_collapseNLAux : ∀ (fuel : Nat) (l : List Char), noHS2 l = true →
    noHS2 (collapseNLAux fuel l) = true := by
  intro fuel
  induction fuel with
  | zero => intro l h; exact h
  | succ f ih =>
    intro l h
    cases l with
    | nil => rfl
    | cons c rest =>
      cases rest with
      | nil => exact h
      | cons d rest2 =>
        cases rest2 with
        | nil => exact h
        | cons e rest3 =>
          simp only [collapseNLAux]
          by_cases hcde : (isNLChar c && isNLChar d && isNLChar e) = true
          · rw [if_pos hcde]
            have hrest3 : noHS2 rest3 = true :=
              noHS2_tail e rest3 (noHS2_tail d _ (noHS2_tail c _ h))
            rw [noHS2_cons]
            apply (Bool.and_eq_true _ _).mpr
            constructor
            · show (!(isHSpace '\n' && headIsHS ('\n' :: collapseNLAux f (rest3.dropWhile isNLChar)))) = true
              rfl
            · rw [noHS2_cons]
              apply (Bool.and_eq_true _ _).mpr
              refine ⟨by rfl, ?_⟩
              exact ih _ (noHS2_dropWhile isNLChar rest3 hrest3)
          · rw [if_neg hcde]
            rw [noHS2_cons]
            apply (Bool.and_eq_true _ _).mpr
            refine ⟨?_, ih _ (noHS2_tail c _ h)⟩
            rw [headIsHS_collapseNLAux]
            rw [noHS2_cons] at h
            exact ((Bool.and_eq_true _ _).mp h).1

/-! ## Run-freedom is closed under prefixes, and preserved by pyStrip -/

lemma noHS2_append_left : ∀ (a b : List Char), noHS2 (a ++ b) = true → noHS2 a = true := by
  intro a
  induction a with
  | nil => intro b _; rfl
  | cons x a' ih =>
    intro b h
    rw [List.cons_append, noHS2_cons] at h
    obtain ⟨h1, h2⟩ := (Bool.and_eq_true _ _).mp h
    rw [noHS2_cons]
    apply (Bool.and_eq_true _ _).mpr
    refine ⟨?_, ih b h2⟩
    cases a' with
    | nil => simp [headIsHS]
    | cons y t => exact h1

lemma noNL3_append_left : ∀ (a b : List Char), noNL3 (a ++ b) = true → noNL3 a = true := by
  intro a
  induction a with
  | nil => intro b _; rfl
  | cons x a' ih =>
    intro b h
    rw [List.cons_append, noNL3_cons] at h
    obtain ⟨h1, h2⟩ := (Bool.and_eq_true _ _).mp h
    rw [noNL3_cons]
    apply (Bool.and_eq_true _ _).mpr
    refine ⟨?_, ih b h2⟩
    cases a' with
    | nil => simp [head2NL]
    | cons y t =>
      cases t with
      | nil => simp [head2NL_cons, headIsNL]
      | cons z t' => exact h1

lemma rstripAux_cons (c : Char) (rest : List Char) :
    rstripAux (c :: rest)
      = (match rstripAux rest with
        | [] => if isPySpace c then [] else [c]
        | d :: t => c :: d :: t) := rfl

lemma rstripAux_shape : ∀ (l : List Char), ∃ t, rstripAux l ++ t = l := by
  intro l
  induction l with
  | nil => exact ⟨[], rfl⟩
  | cons c rest ih =>
    obtain ⟨t, ht⟩ := ih
    cases h : rstripAux rest with
    | nil =>
      by_cases hc : isPySpace c = true
      · refine ⟨c :: rest, ?_⟩
        rw [rstripAux_cons, h]
        show (if isPySpace c then [] else [c]) ++ (c :: rest) = c :: rest
        rw [if_pos hc]
        rfl
      · refine ⟨rest, ?_⟩
        rw [rstripAux_cons, h]
        show (if isPySpace c then [] else [c]) ++ rest = c :: rest
        rw [if_neg hc]
        rfl
    | cons d t2 =>
      rw [h] at ht
      refine ⟨t, ?_⟩
      rw [rstripAux_cons, h]
      show (c :: d :: t2) ++ t = c :: rest
      rw [List.cons_append, ht]

lemma rstripAux_idem : ∀ (l : List Char), rstripAux (rstripAux l) = rstripAux l := by
  intro l
  induction l with
  | nil => rfl
  | cons c rest ih =>
    cases h : rstripAux rest with
    | nil =>
      rw [rstripAux_cons, h]
      by_cases hc : isPySpace c = true
      · rw [if_pos hc]; rfl
      · rw [if_neg hc]
        rw [rstripAux_cons]
        show (match rstripAux ([] : List Char) with
          | [] => if isPySpace c then [] else [c]
          | d :: t => c :: d :: t) = [c]
        show (if isPySpace c then [] else [c]) = [c]
        rw [if_neg hc]
    | cons d t2 =>
      rw [h] at ih
      rw [rstripAux_cons, h]
      show rstripAux (c :: d :: t2) = c :: d :: t2
      rw [rstripAux_cons, ih]

lemma headIsPS_rstripAux (l : List Char) (h : headIsPS l = false) :
    headIsPS (rstripAux l) = false := by
  obtain ⟨t, ht⟩ := rstripAux_shape l
  cases hr : rstripAux l with
  | nil => rfl
  | cons x xs =>
    rw [hr] at ht
    rw [← ht] at h
    exact h

lemma dropWhile_of_headIsPS_false (l : List Char) (h : headIsPS l = false) :
    l.dropWhile isPySpace = l := by
  cases l with
  | nil => rfl
  | cons c t =>
    have hc : isPySpace c = false := h
    show (match isPySpace c with | true => List.dropWhile isPySpace t | false => c :: t) = c :: t
    rw [hc]

lemma pyStrip_idem (l : List Char) : pyStrip (pyStrip l) = pyStrip l := by
  show rstripAux ((rstripAux (l.dropWhile isPySpace)).dropWhile isPySpace)
      = rstripAux (l.dropWhile isPySpace)
  rw [dropWhile_of_headIsPS_false _ (headIsPS_rstripAux _ (headIsPS_dropWhile l))]
  exact rstripAux_idem _

lemma noHS2_pyStrip (l : List Char) (h : noHS2 l = true) : noHS2 (pyStrip l) = true := by
  have h1 : noHS2 (l.dropWhile isPySpace) = true := noHS2_dropWhile isPySpace l h
  obtain ⟨t, ht⟩ := rstripAux_shape (l.dropWhile isPySpace)
  show noHS2 (rstripAux (l.dropWhile isPySpace)) = true
  apply noHS2_append_left _ t
  rw [ht]
  exact h1

lemma noNL3_pyStrip (l : List Char) (h : noNL3 l = true) : noNL3 (pyStrip l) = true := by
  have h1 : noNL3 (l.dropWhile isPySpace) = true := noNL3_dropWhile isPySpace l h
  obtain ⟨t, ht⟩ := rstripAux_shape (l.dropWhile isPySpace)
  show noNL3 (rstripAux (l.dropWhile isPySpace)) = true
  apply noNL3_append_left _ t
  rw [ht]
  exact h1

/-! ## Claim C3 -/

lemma stripLabel_of_none (l : List Char) (h : matchLabel l = none) : stripLabel l = l := by
  unfold stripLabel
  rw [h]

lemma collapseSpaces_of_noHS2 (l : List Char) (h : noHS2 l = true) : collapseSpaces l = l :=
  collapseSpacesAux_of_noHS2 l.length l h

lemma collapseNewlines_of_noNL3 (l : List Char) (h : noNL3 l = true) : collapseNewlines l = l :=
  collapseNLAux_of_noNL3 l.length l h

/-- Under the four cleanliness conditions, one application of the
`normalize_answer` pipeline is the identity. -/
lemma answerList_fixed (l : List Char)
    (hm : noMatchAll false l = true) (hl : matchLabel l = none)
    (hs : noHS2 l = true) (hn : noNL3 l = true)
    (hp : pyStrip l = l) :
    answerList l = l := by
  show pyStrip (collapseNewlines (collapseSpaces (stripLabel (reSubSpaced false l)))) = l
  rw [reSubSpaced_of_noMatchAll l false hm, stripLabel_of_none l hl,
    collapseSpaces_of_noHS2 l hs, collapseNewlines_of_noNL3 l hn, hp]

/-- C3 counterexample: `normalize_answer` is not idempotent.  On
`"a  b  c"` one application collapses the double spaces to `"a b c"`, and
a second application then collapses the newly created run of spaced
single letters to `"abc"`. -/
theorem normalize_answer_not_idempotent :
    normalize_answer (normalize_answer "a  b  c") ≠ normalize_answer "a  b  c" := by
  decide

/-- C3 (amended): `normalize_answer` is not idempotent in general —
collapsing horizontal whitespace can create a new spaced single-letter
run, and only one leading prompt label is stripped per application — but
it is idempotent on every input whose one-pass output contains no spaced
single-letter run and does not begin with a prompt label. -/
theorem normalize_answer_idempotent_of_clean (x : String)
    (h1 : noMatchAll false (normalize_answer x).data = true)
    (h2 : matchLabel (normalize_answer x).data = none) :
    normalize_answer (normalize_answer x) = normalize_answer x := by
  have h1' : noMatchAll false (answerList x.data) = true := h1
  have h2' : matchLabel (answerList x.data) = none := h2
  have hHSmid : noHS2 (collapseNewlines (collapseSpaces
      (stripLabel (reSubSpaced false x.data)))) = true :=
    noHS2_collapseNLAux _ _ (noHS2_collapseSpacesAux _ _ (le_refl _))
  have hNLmid : noNL3 (collapseNewlines (collapseSpaces
      (stripLabel (reSubSpaced false x.data)))) = true :=
    noNL3_collapseNLAux _ _ (le_refl _)
  have hHS : noHS2 (answerList x.data) = true := noHS2_pyStrip _ hHSmid
  have hNL : noNL3 (answerList x.data) = true := noNL3_pyStrip _ hNLmid
  have hp : pyStrip (answerList x.data) = answerList x.data :=
    pyStrip_idem (collapseNewlines (collapseSpaces (stripLabel (reSubSpaced false x.data))))
  have key : answerList (answerList x.data) = answerList x.data :=
    answerList_fixed _ h1' h2' hHS hNL hp
  show String.mk (answerList (String.mk (answerList x.data)).data)
      = String.mk (answerList x.data)
  exact congrArg String.mk key

/-- Witness for the amended C3: at the concrete input `"hello"` both
cleanliness hypotheses hold and the theorem gives the fixed point. -/
theorem normalize_answer_idempotent_of_clean_witness :
    noMatchAll false (normalize_answer "hello").data = true
    ∧ matchLabel (normalize_answer "hello").data = none
    ∧ normalize_answer (normalize_answer "hello") = normalize_answer "hello" :=
  ⟨by decide, by decide,
    normalize_answer_idempotent_of_clean "hello" (by decide) (by decide)⟩

/-! ## The session store of main.py

Every store operation runs while holding `sessions_lock` (an RLock), so
each is modelled as a single transformation of the store state. -/

/-- A FAISS vectorstore as the endpoints use it: an opaque retrieval index
supporting `similarity_search(query, k)`; a retrieved document is
represented by its `page_content` string. -/
structure Vectorstore where
  similarity_search : String → Nat → List String

/-- One entry of the global `sessions` dict:
`{"vectorstore": FAISS, "upload_time": str}`. -/
structure SessionEntry where
  vectorstore : Vectorstore
  upload_time : String

/-- The global `sessions` dict. -/
def Store : Type := String → Option SessionEntry

/-- `get_session_vectorstore` of main.py: `(vectorstore, upload_time)` of
the session's entry, or `(None, None)` when the key is absent. -/
def get_session_vectorstore (sessions : Store) (session_id : String) :
    Option Vectorstore × Option String :=
  match sessions session_id with
  | some session_data => (some session_data.vectorstore, some session_data.upload_time)
  | none => (none, none)

/-- `set_session_vectorstore` of main.py: stores the new
`{"vectorstore": ..., "upload_time": ...}` entry under the key, replacing
(and releasing) any previous entry. -/
def set_session_vectorstore (sessions : Store) (session_id : String)
    (vectorstore : Vectorstore) (upload_time : String) : Store :=
  fun k => if k = session_id then some ⟨vectorstore, upload_time⟩ else sessions k

/-- `clear_session` of main.py: deletes the entry if the key is present,
no-op otherwise. -/
def clear_session (sessions : Store) (session_id : String) : Store :=
  if (sessions session_id).isSome then
    fun k => if k = session_id then none else sessions k
  else sessions

/-! ## Bounded generation -/

/-- One call of the Groq chat-completions API: how many wall-clock seconds
the synchronous call blocks before returning, and its outcome — `ok`
decoded content, or `error` for a raised exception (remote failures and
SDK-level timeouts included). -/
structure GroqCall where
  elapsed_seconds : Nat
  result : Except String String

/-- The Groq client as an external collaborator: the prompt and
`max_tokens` determine the call made. -/
def GroqClient : Type := String → Nat → GroqCall

/-- `generate_response` of main.py: a synchronous
`groq_client.chat.completions.create(...)` followed by
`.choices[0].message.content.strip()`.  The function has no timeout logic
of its own: it blocks until the API call returns, however long that
takes, returns the stripped content on success, and lets an exception
propagate to the calling endpoint. -/
def generate_response (groq_client : GroqClient) (prompt : String)
    (max_new_tokens : Nat) : Except String String :=
  (groq_client prompt max_new_tokens).result.map pyStripStr

/-- Replace the blocking time of every call of a client, keeping each
call's outcome. -/
def withElapsed (groq_client : GroqClient) (t : Nat) : GroqClient :=
  fun prompt max_tokens =>
    { elapsed_seconds := t, result := (groq_client prompt max_tokens).result }

/-! ## Request and response shapes -/

structure ChatMessage where
  role : String
  content : String

/-- Body of `POST /ask`. -/
structure AskRequest where
  question : String
  history : List ChatMessage

/-- Body of `POST /summarize` (the `pdf` field is unused). -/
structure SummarizeRequest where
  pdf : Option String

/-- Body of `POST /compare`: an untyped dict in main.py; only these three
keys are read, each via `.get` with a default. -/
structure CompareBody where
  session_id_1 : Option String
  session_id_2 : Option String
  question : Option String

/-- The JSON response shapes the endpoints of main.py produce. -/
inductive ApiResponse
  | answer (text : String)
  | summary (text : String)
  | comparison (text : String)
  | error (msg : String)
  | resetOk (message : String) (session_id : String)

def ApiResponse.isAnswer : ApiResponse → Bool
  | .answer _ => true
  | _ => false

def ApiResponse.isError : ApiResponse → Bool
  | .error _ => true
  | _ => false

/-- The text payload of a response. -/
def ApiResponse.text : ApiResponse → String
  | .answer t => t
  | .summary t => t
  | .comparison t => t
  | .error t => t
  | .resetOk m _ => m

/-! ## Prompt builders (the literal templates of main.py) -/

/-- The `conversation_context` accumulation in `ask_question`: the last 5
history entries, each rendered as `role: content\n` when both fields are
non-empty (Python truthiness of the `.get` results). -/
def conversation_context_of (history : List ChatMessage) : String :=
  (history.drop (history.length - 5)).foldl
    (fun acc msg =>
      if msg.role ≠ "" ∧ msg.content ≠ "" then acc ++ msg.role ++ ": " ++ msg.content ++ "\n"
      else acc) ""

/-- The f-string prompt of `ask_question`. -/
def ask_prompt (conversation_context context question : String) : String :=
  "You are a helpful assistant answering questions ONLY from the provided PDF document.\n\nConversation History (for context only):\n"
    ++ conversation_context
    ++ "\n\nDocument Context (ONLY reference this):\n"
    ++ context
    ++ "\n\nCurrent Question:\n"
    ++ question
    ++ "\n\nInstructions:\n- Answer ONLY using the document context provided above.\n- Do NOT use any information from previous documents or conversations outside this context.\n- If the answer is not in the document, say so briefly.\n- Keep the answer concise (2-3 sentences max).\n\nAnswer:"

/-- The prompt of `summarize_pdf`. -/
def summarize_prompt (context : String) : String :=
  "You are a document summarization assistant working with a certificate or official document.\nRULES:\n1. Summarize in 6-8 concise bullet points.\n2. Clearly distinguish: who received the certificate, what course, which company issued it,\n   who signed it, on what platform, and on what date.\n3. Return clean, properly formatted text — no character spacing, proper Title Case for names.\n4. Use ONLY the information in the context below.\n5. DO NOT reference any other documents or previous PDFs.\n\nContext:\n"
    ++ context
    ++ "\n\nSummary (bullet points):"

/-- The f-string prompt of `compare_pdfs`. -/
def compare_prompt (context_1 context_2 question : String) : String :=
  "You are a document comparison assistant.\n\nPDF 1 Context:\n"
    ++ context_1
    ++ "\n\nPDF 2 Context:\n"
    ++ context_2
    ++ "\n\nQuestion: " ++ question
    ++ "\n\nCompare the two documents regarding this question and highlight key differences and similarities.\n\nComparison:"

/-! ## Endpoint handlers -/

/-- `POST /ask` (`ask_question` of main.py).  The session key is the
`X-Session-ID` header, `"default"` when absent.  The question is used as
given (no validation).  An exception in the `try` block — a failing
generation call — becomes the `{"answer": "Error processing question:
..."}` payload. -/
def ask_question (groq_client : GroqClient) (sessions : Store)
    (x_session_id : Option String) (data : AskRequest) : ApiResponse :=
  match (get_session_vectorstore sessions (x_session_id.getD "default")).1 with
  | none => .answer "Please upload a PDF first!"
  | some vectorstore =>
    match vectorstore.similarity_search data.question 4 with
    | [] => .answer "No relevant context found in the current PDF."
    | doc :: docs =>
      match generate_response groq_client
          (ask_prompt (conversation_context_of data.history)
            (String.intercalate "\n\n" (doc :: docs)) data.question) 512 with
      | .ok raw_answer => .answer (normalize_answer raw_answer)
      | .error e => .answer ("Error processing question: " ++ e)

/-- `POST /summarize` (`summarize_pdf` of main.py). -/
def summarize_pdf (groq_client : GroqClient) (sessions : Store)
    (x_session_id : Option String) (data : SummarizeRequest) : ApiResponse :=
  match (get_session_vectorstore sessions (x_session_id.getD "default")).1 with
  | none => .summary "Please upload a PDF first!"
  | some vectorstore =>
    match vectorstore.similarity_search "Give a concise summary of the document." 6 with
    | [] => .summary "No document context available to summarize."
    | doc :: docs =>
      match generate_response groq_client
          (summarize_prompt (String.intercalate "\n\n" (doc :: docs))) 512 with
      | .ok raw_summary => .summary (normalize_answer raw_summary)
      | .error e => .summary ("Error summarizing PDF: " ++ e)

/-- `POST /compare` (`compare_pdfs` of main.py): both session keys default
to `"default"` when absent from the body, the question to
`"Compare these documents"`; a missing index on either side is the hard
`{"error": ...}` payload; both sides retrieve their top-3 chunks. -/
def compare_pdfs (groq_client : GroqClient) (sessions : Store)
    (data : CompareBody) : ApiResponse :=
  match (get_session_vectorstore sessions (data.session_id_1.getD "default")).1,
        (get_session_vectorstore sessions (data.session_id_2.getD "default")).1 with
  | some vectorstore_1, some vectorstore_2 =>
    match generate_response groq_client
        (compare_prompt
          (String.intercalate "\n\n"
            (vectorstore_1.similarity_search (data.question.getD "Compare these documents") 3))
          (String.intercalate "\n\n"
            (vectorstore_2.similarity_search (data.question.getD "Compare these documents") 3))
          (data.question.getD "Compare these documents")) 512 with
    | .ok comparison => .comparison (normalize_answer comparison)
    | .error e => .error ("Error comparing PDFs: " ++ e)
  | _, _ => .error "One or both sessions do not have a PDF loaded"

/-- `POST /reset` (`reset_session` of main.py): clears the calling session
and always reports success. -/
def reset_session (sessions : Store) (x_session_id : Option String) :
    Store × ApiResponse :=
  (clear_session sessions (x_session_id.getD "default"),
    .resetOk "Session cleared successfully" (x_session_id.getD "default"))

/-! ## Claim C1 -/

/-- C1 counterexample: with a backend call that blocks for 10^9 seconds
before succeeding, `generate_response` still returns the decoded text.
It takes no timeout, never returns control early, and has no
distinguished `GenerationTimeout` outcome — refuting the claimed
timeout contract at this input. -/
theorem generate_response_no_timeout_cex :
    generate_response (fun _ _ => ⟨1000000000, Except.ok " hi "⟩) "p" 512
      = Except.ok "hi" := by
  show Except.ok (pyStripStr " hi ") = Except.ok "hi"
  rw [show pyStripStr " hi " = "hi" by decide]

/-- C1 (amended): `generate_response` has no timeout of its own: its
result is independent of how long the backend call blocks (the call is
awaited unconditionally and no GenerationTimeout outcome exists); on
backend success it returns the decoded text trimmed of leading and
trailing whitespace, and a backend-reported failure propagates unchanged
to the calling endpoint (which surfaces it inside its JSON payload). -/
theorem generate_response_contract (groq_client : GroqClient) (prompt : String)
    (max_new_tokens : Nat) :
    (∀ t : Nat, generate_response (withElapsed groq_client t) prompt max_new_tokens
        = generate_response groq_client prompt max_new_tokens)
    ∧ (∀ content, (groq_client prompt max_new_tokens).result = .ok content →
        generate_response groq_client prompt max_new_tokens = .ok (pyStripStr content))
    ∧ (∀ e, (groq_client prompt max_new_tokens).result = .error e →
        generate_response groq_client prompt max_new_tokens = .error e) := by
  refine ⟨fun t => rfl, fun content h => ?_, fun e h => ?_⟩
  · show (groq_client prompt max_new_tokens).result.map pyStripStr = _
    rw [h]; rfl
  · show (groq_client prompt max_new_tokens).result.map pyStripStr = _
    rw [h]; rfl

/-- Witness for the amended C1 at a concrete client. -/
theorem generate_response_contract_witness :
    ((fun _ _ => ⟨7, Except.ok " ok "⟩ : GroqClient) "p" 512).result = Except.ok " ok "
    ∧ generate_response (fun _ _ => ⟨7, Except.ok " ok "⟩) "p" 512
        = Except.ok (pyStripStr " ok ") :=
  ⟨rfl, (generate_response_contract (fun _ _ => ⟨7, Except.ok " ok "⟩) "p" 512).2.1 " ok " rfl⟩

/-! ## Claim C5 -/

/-- C5: storing an index under an existing key replaces the prior entry in
one store update: the lookup under that key afterwards returns exactly the
newly stored index and its timestamp (never the old entry or a mix — both
fields come from the single entry written by the update, so the stored
upload timestamp always belongs to the currently stored index), and
lookups under every other key are untouched. -/
theorem set_session_vectorstore_replaces (sessions : Store) (session_id : String)
    (vectorstore : Vectorstore) (upload_time : String) :
    get_session_vectorstore
        (set_session_vectorstore sessions session_id vectorstore upload_time) session_id
      = (some vectorstore, some upload_time)
    ∧ set_session_vectorstore sessions session_id vectorstore upload_time session_id
      = some ⟨vectorstore, upload_time⟩
    ∧ (∀ k, k ≠ session_id →
        set_session_vectorstore sessions session_id vectorstore upload_time k = sessions k) := by
  refine ⟨?_, ?_, ?_⟩
  · unfold get_session_vectorstore set_session_vectorstore
    rw [if_pos rfl]
  · unfold set_session_vectorstore
    rw [if_pos rfl]
  · intro k hk
    unfold set_session_vectorstore
    rw [if_neg hk]

/-- Witness for C5 at a concrete store, key, index and timestamp. -/
theorem set_session_vectorstore_replaces_witness :
    get_session_vectorstore
        (set_session_vectorstore (fun _ => none) "A" ⟨fun _ _ => ["chunk"]⟩ "t1") "A"
      = (some ⟨fun _ _ => ["chunk"]⟩, some "t1")
    ∧ ("B" : String) ≠ "A"
    ∧ set_session_vectorstore (fun _ => none) "A" ⟨fun _ _ => ["chunk"]⟩ "t1" "B"
      = (fun _ => none : Store) "B" :=
  ⟨(set_session_vectorstore_replaces (fun _ => none) "A" ⟨fun _ _ => ["chunk"]⟩ "t1").1,
    by decide,
    (set_session_vectorstore_replaces (fun _ => none) "A" ⟨fun _ _ => ["chunk"]⟩ "t1").2.2
      "B" (by decide)⟩

/-! ## Claim C9 -/

/-- C9: `clear_session` removes the entry for the key if present and is a
no-op otherwise; a `/reset` on a never-ingested key leaves the store
unchanged and still returns the `{message, session_id}` success payload. -/
theorem clear_session_spec (sessions : Store) (session_id : String) :
    (clear_session sessions session_id) session_id = none
    ∧ (∀ k, k ≠ session_id → (clear_session sessions session_id) k = sessions k)
    ∧ (sessions session_id = none → clear_session sessions session_id = sessions)
    ∧ (∀ x_session_id : Option String,
        sessions (x_session_id.getD "default") = none →
        reset_session sessions x_session_id
          = (sessions, .resetOk "Session cleared successfully" (x_session_id.getD "default"))) := by
  refine ⟨?_, ?_, ?_, ?_⟩
  · unfold clear_session
    cases h : sessions session_id with
    | none => rw [if_neg (by simp [h])]; exact h
    | some e =>
      rw [if_pos (by simp [h])]
      show (if session_id = session_id then none else sessions session_id) = none
      rw [if_pos rfl]
  · intro k hk
    unfold clear_session
    by_cases h : (sessions session_id).isSome = true
    · rw [if_pos h]
      show (if k = session_id then none else sessions k) = sessions k
      rw [if_neg hk]
    · rw [if_neg h]
  · intro h
    unfold clear_session
    rw [if_neg (by simp [h])]
  · intro x_session_id h
    unfold reset_session
    rw [show clear_session sessions (x_session_id.getD "default") = sessions from by
      unfold clear_session; rw [if_neg (by simp [h])]]

/-- Witness for C9 at a concrete (empty) store and key. -/
theorem clear_session_spec_witness :
    clear_session (fun _ => none) "Z" "Z" = none
    ∧ ("Y" : String) ≠ "Z"
    ∧ clear_session (fun _ => none) "Z" "Y" = (fun _ => none : Store) "Y"
    ∧ clear_session (fun _ => none) "Z" = (fun _ => none : Store)
    ∧ reset_session (fun _ => none) none
      = ((fun _ => none : Store), .resetOk "Session cleared successfully" "default") :=
  ⟨(clear_session_spec (fun _ => none) "Z").1,
    by decide,
    (clear_session_spec (fun _ => none) "Z").2.1 "Y" (by decide),
    (clear_session_spec (fun _ => none) "Z").2.2.1 rfl,
    (clear_session_spec (fun _ => none) "Z").2.2.2 none rfl⟩

/-! ## Claim C2 -/

def hasPrefixSeq : List Char → List Char → Bool
  | [], _ => true
  | _ :: _, [] => false
  | a :: as, b :: bs => (a == b) && hasPrefixSeq as bs

/-- Does `needle` occur as a contiguous subsequence? -/
def containsSeq (needle : List Char) : List Char → Bool
  | [] => needle.isEmpty
  | c :: rest => hasPrefixSeq needle (c :: rest) || containsSeq needle rest

/-- A store holding one session under `"default"` whose index always
retrieves one fixed chunk. -/
def cexStore : Store :=
  fun k =>
    if k = "default" then some ⟨⟨fun _ _ => ["SECRETCHUNK"]⟩, "2024-01-01T00:00:00"⟩
    else none

/-- A Groq client that echoes the prompt it receives. -/
def echoClient : GroqClient := fun prompt _ => ⟨1, Except.ok prompt⟩

/-- C2 counterexample: a request whose question is empty after trimming is
NOT rejected with an `InvalidInput` error: with a loaded session it
proceeds to similarity search and generation like any other request — the
response is answer-shaped, and with an echoing backend the answer contains
the retrieved chunk text. -/
theorem ask_empty_question_not_rejected :
    (ask_question echoClient cexStore none ⟨"", []⟩).isError = false
    ∧ (ask_question echoClient cexStore none ⟨"", []⟩).isAnswer = true
    ∧ containsSeq "SECRETCHUNK".data
        (ask_question echoClient cexStore none ⟨"", []⟩).text.data = true := by
  decide

/-- C2 (amended): `ask_question` performs no validation of the question:
every response it produces is answer-shaped (`{"answer": ...}`), never an
`InvalidInput` (or any other) error payload — in particular a question
that is empty after trimming proceeds to search and generation. -/
theorem ask_question_always_answer_shaped (groq_client : GroqClient) (sessions : Store)
    (x_session_id : Option String) (data : AskRequest) :
    (ask_question groq_client sessions x_session_id data).isAnswer = true := by
  unfold ask_question
  cases (get_session_vectorstore sessions (x_session_id.getD "default")).1 with
  | none => rfl
  | some vectorstore =>
    show (match vectorstore.similarity_search data.question 4 with
      | [] => ApiResponse.answer "No relevant context found in the current PDF."
      | doc :: docs =>
        match generate_response groq_client
            (ask_prompt (conversation_context_of data.history)
              (String.intercalate "\n\n" (doc :: docs)) data.question) 512 with
        | .ok raw_answer => ApiResponse.answer (normalize_answer raw_answer)
        | .error e => ApiResponse.answer ("Error processing question: " ++ e)).isAnswer = true
    cases vectorstore.similarity_search data.question 4 with
    | nil => rfl
    | cons doc docs =>
      show (match generate_response groq_client
          (ask_prompt (conversation_context_of data.history)
            (String.intercalate "\n\n" (doc :: docs)) data.question) 512 with
        | .ok raw_answer => ApiResponse.answer (normalize_answer raw_answer)
        | .error e => ApiResponse.answer ("Error processing question: " ++ e)).isAnswer = true
      cases generate_response groq_client
          (ask_prompt (conversation_context_of data.history)
            (String.intercalate "\n\n" (doc :: docs)) data.question) 512 with
      | ok r => rfl
      | error e => rfl

/-! ## Claim C6 -/

/-- C6: single-session queries return soft, answer-shaped informational
results, never an error payload: with no stored index `/ask` and
`/summarize` return the "please upload" message, and with a stored index
whose similarity search returns zero chunks they return the "no context"
message. -/
theorem soft_results_no_session_no_context (groq_client : GroqClient) (sessions : Store)
    (x_session_id : Option String) :
    (∀ data : AskRequest, sessions (x_session_id.getD "default") = none →
        ask_question groq_client sessions x_session_id data
          = .answer "Please upload a PDF first!")
    ∧ (∀ data : SummarizeRequest, sessions (x_session_id.getD "default") = none →
        summarize_pdf groq_client sessions x_session_id data
          = .summary "Please upload a PDF first!")
    ∧ (∀ (data : AskRequest) (vs : Vectorstore) (t : String),
        sessions (x_session_id.getD "default") = some ⟨vs, t⟩ →
        vs.similarity_search data.question 4 = [] →
        ask_question groq_client sessions x_session_id data
          = .answer "No relevant context found in the current PDF.")
    ∧ (∀ (data : SummarizeRequest) (vs : Vectorstore) (t : String),
        sessions (x_session_id.getD "default") = some ⟨vs, t⟩ →
        vs.similarity_search "Give a concise summary of the document." 6 = [] →
        summarize_pdf groq_client sessions x_session_id data
          = .summary "No document context available to summarize.") := by
  refine ⟨?_, ?_, ?_, ?_⟩
  · intro data h
    unfold ask_question get_session_vectorstore
    rw [h]
  · intro data h
    unfold summarize_pdf get_session_vectorstore
    rw [h]
  · intro data vs t h hsearch
    unfold ask_question get_session_vectorstore
    rw [h]
    show (match vs.similarity_search data.question 4 with
      | [] => ApiResponse.answer "No relevant context found in the current PDF."
      | doc :: docs =>
        match generate_response groq_client
            (ask_prompt (conversation_context_of data.history)
              (String.intercalate "\n\n" (doc :: docs)) data.question) 512 with
        | .ok raw_answer => ApiResponse.answer (normalize_answer raw_answer)
        | .error e => ApiResponse.answer ("Error processing question: " ++ e))
      = ApiResponse.answer "No relevant context found in the current PDF."
    rw [hsearch]
  · intro data vs t h hsearch
    unfold summarize_pdf get_session_vectorstore
    rw [h]
    show (match vs.similarity_search "Give a concise summary of the document." 6 with
      | [] => ApiResponse.summary "No document context available to summarize."
      | doc :: docs =>
        match generate_response groq_client
            (summarize_prompt (String.intercalate "\n\n" (doc :: docs))) 512 with
        | .ok raw_summary => ApiResponse.summary (normalize_answer raw_summary)
        | .error e => ApiResponse.summary ("Error summarizing PDF: " ++ e))
      = ApiResponse.summary "No document context available to summarize."
    rw [hsearch]

/-- Witness for C6: the four soft results at concrete stores (an empty
store, and a store whose index retrieves nothing). -/
theorem soft_results_no_session_no_context_witness :
    ask_question echoClient (fun _ => none) none ⟨"q", []⟩
      = .answer "Please upload a PDF first!"
    ∧ summarize_pdf echoClient (fun _ => none) none ⟨none⟩
      = .summary "Please upload a PDF first!"
    ∧ ask_question echoClient
        (fun k => if k = "default" then some ⟨⟨fun _ _ => []⟩, "t"⟩ else none) none ⟨"q", []⟩
      = .answer "No relevant context found in the current PDF."
    ∧ summarize_pdf echoClient
        (fun k => if k = "default" then some ⟨⟨fun _ _ => []⟩, "t"⟩ else none) none ⟨none⟩
      = .summary "No document context available to summarize." :=
  ⟨(soft_results_no_session_no_context echoClient (fun _ => none) none).1 ⟨"q", []⟩ rfl,
    (soft_results_no_session_no_context echoClient (fun _ => none) none).2.1 ⟨none⟩ rfl,
    (soft_results_no_session_no_context echoClient
        (fun k => if k = "default" then some ⟨⟨fun _ _ => []⟩, "t"⟩ else none) none).2.2.1
      ⟨"q", []⟩ ⟨fun _ _ => []⟩ "t" rfl rfl,
    (soft_results_no_session_no_context echoClient
        (fun k => if k = "default" then some ⟨⟨fun _ _ => []⟩, "t"⟩ else none) none).2.2.2
      ⟨none⟩ ⟨fun _ _ => []⟩ "t" rfl rfl⟩

/-! ## Shared facts about compare_pdfs (used by the C7 and C10 claims) -/

lemma compare_error_of_missing (groq_client : GroqClient) (sessions : Store)
    (data : CompareBody)
    (h : (get_session_vectorstore sessions (data.session_id_1.getD "default")).1 = none
      ∨ (get_session_vectorstore sessions (data.session_id_2.getD "default")).1 = none) :
    compare_pdfs groq_client sessions data
      = .error "One or both sessions do not have a PDF loaded" := by
  unfold compare_pdfs
  cases h1 : (get_session_vectorstore sessions (data.session_id_1.getD "default")).1 with
  | none => rfl
  | some vs1 =>
    cases h2 : (get_session_vectorstore sessions (data.session_id_2.getD "default")).1 with
    | none => rfl
    | some vs2 =>
      exfalso
      rcases h with h | h
      · rw [h1] at h; exact absurd h (by simp)
      · rw [h2] at h; exact absurd h (by simp)

lemma compare_comparison_of_present (groq_client : GroqClient) (sessions : Store)
    (data : CompareBody) (vs1 vs2 : Vectorstore) (out : String)
    (h1 : (get_session_vectorstore sessions (data.session_id_1.getD "default")).1 = some vs1)
    (h2 : (get_session_vectorstore sessions (data.session_id_2.getD "default")).1 = some vs2)
    (hgen : generate_response groq_client
      (compare_prompt
        (String.intercalate "\n\n"
          (vs1.similarity_search (data.question.getD "Compare these documents") 3))
        (String.intercalate "\n\n"
          (vs2.similarity_search (data.question.getD "Compare these documents") 3))
        (data.question.getD "Compare these documents")) 512 = .ok out) :
    compare_pdfs groq_client sessions data = .comparison (normalize_answer out) := by
  unfold compare_pdfs
  rw [h1, h2]
  show (match generate_response groq_client
      (compare_prompt
        (String.intercalate "\n\n"
          (vs1.similarity_search (data.question.getD "Compare these documents") 3))
        (String.intercalate "\n\n"
          (vs2.similarity_search (data.question.getD "Compare these documents") 3))
        (data.question.getD "Compare these documents")) 512 with
    | .ok comparison => ApiResponse.comparison (normalize_answer comparison)
    | .error e => ApiResponse.error ("Error comparing PDFs: " ++ e))
    = ApiResponse.comparison (normalize_answer out)
  rw [hgen]

/-! ## Claim C7 -/

/-- C7: `/compare` returns the hard `{"error": ...}` payload whenever
either resolved session key has no stored index; when both indexes are
present (and the generation call returns output) it returns a comparison
text generated from the prompt built out of both sides' top-3 retrieved
contexts. -/
theorem compare_pdfs_contract (groq_client : GroqClient) (sessions : Store)
    (data : CompareBody) :
    (((get_session_vectorstore sessions (data.session_id_1.getD "default")).1 = none
        ∨ (get_session_vectorstore sessions (data.session_id_2.getD "default")).1 = none) →
      compare_pdfs groq_client sessions data
        = .error "One or both sessions do not have a PDF loaded")
    ∧ (∀ (vs1 vs2 : Vectorstore) (out : String),
        (get_session_vectorstore sessions (data.session_id_1.getD "default")).1 = some vs1 →
        (get_session_vectorstore sessions (data.session_id_2.getD "default")).1 = some vs2 →
        generate_response groq_client
          (compare_prompt
            (String.intercalate "\n\n"
              (vs1.similarity_search (data.question.getD "Compare these documents") 3))
            (String.intercalate "\n\n"
              (vs2.similarity_search (data.question.getD "Compare these documents") 3))
            (data.question.getD "Compare these documents")) 512 = .ok out →
        compare_pdfs groq_client sessions data = .comparison (normalize_answer out)) :=
  ⟨fun h => compare_error_of_missing groq_client sessions data h,
    fun vs1 vs2 out h1 h2 hgen =>
      compare_comparison_of_present groq_client sessions data vs1 vs2 out h1 h2 hgen⟩

def cexVs1 : Vectorstore := ⟨fun _ _ => ["alpha"]⟩

def cexVs2 : Vectorstore := ⟨fun _ _ => ["beta"]⟩

def cexStore2 : Store :=
  fun k =>
    if k = "A" then some ⟨cexVs1, "t1"⟩
    else if k = "B" then some ⟨cexVs2, "t2"⟩
    else none

def constClient : GroqClient := fun _ _ => ⟨1, Except.ok " Both mention the topic. "⟩

/-- Witness for C7: a concrete two-session store yields a comparison, and
an empty store yields the hard error. -/
theorem compare_pdfs_contract_witness :
    compare_pdfs constClient cexStore2 ⟨some "A", some "B", some "q"⟩
      = .comparison (normalize_answer (pyStripStr " Both mention the topic. "))
    ∧ compare_pdfs constClient (fun _ => none) ⟨some "A", some "B", some "q"⟩
      = .error "One or both sessions do not have a PDF loaded" :=
  ⟨(compare_pdfs_contract constClient cexStore2 ⟨some "A", some "B", some "q"⟩).2
      cexVs1 cexVs2 (pyStripStr " Both mention the topic. ") rfl rfl rfl,
    (compare_pdfs_contract constClient (fun _ => none) ⟨some "A", some "B", some "q"⟩).1
      (Or.inl rfl)⟩

/-! ## Claim C10 -/

/-- C10: a `/compare` body with a missing `session_id_1` or `session_id_2`
field is not rejected as malformed: each missing key silently becomes
`"default"`.  A body omitting both fields compares the `"default"`
session's index against itself: it is the missing-session error payload
when `"default"` holds no index, and otherwise (when generation returns
output) a comparison whose two contexts are retrieved from that same
index. -/
theorem compare_defaults_missing_keys (groq_client : GroqClient) (sessions : Store)
    (data : CompareBody) (hm1 : data.session_id_1 = none) (hm2 : data.session_id_2 = none) :
    (sessions "default" = none →
      compare_pdfs groq_client sessions data
        = .error "One or both sessions do not have a PDF loaded")
    ∧ (∀ (vs : Vectorstore) (t : String) (out : String),
        sessions "default" = some ⟨vs, t⟩ →
        generate_response groq_client
          (compare_prompt
            (String.intercalate "\n\n"
              (vs.similarity_search (data.question.getD "Compare these documents") 3))
            (String.intercalate "\n\n"
              (vs.similarity_search (data.question.getD "Compare these documents") 3))
            (data.question.getD "Compare these documents")) 512 = .ok out →
        compare_pdfs groq_client sessions data = .comparison (normalize_answer out)) := by
  have hk1 : data.session_id_1.getD "default" = "default" := by rw [hm1]; rfl
  have hk2 : data.session_id_2.getD "default" = "default" := by rw [hm2]; rfl
  constructor
  · intro h
    apply compare_error_of_missing
    left
    rw [hk1]
    unfold get_session_vectorstore
    rw [h]
  · intro vs t out h hgen
    apply compare_comparison_of_present groq_client sessions data vs vs out
    · rw [hk1]
      unfold get_session_vectorstore
      rw [h]
    · rw [hk2]
      unfold get_session_vectorstore
      rw [h]
    · exact hgen

def cexVsD : Vectorstore := ⟨fun _ _ => ["delta"]⟩

def cexStoreD : Store := fun k => if k = "default" then some ⟨cexVsD, "t0"⟩ else none

/-- Witness for C10: the body `{}` (all three keys missing) against an
empty store gives the missing-session error; against a store holding a
`"default"` session it gives a comparison of that session with itself. -/
theorem compare_defaults_missing_keys_witness :
    compare_pdfs constClient (fun _ => none) ⟨none, none, none⟩
      = .error "One or both sessions do not have a PDF loaded"
    ∧ compare_pdfs constClient cexStoreD ⟨none, none, none⟩
      = .comparison (normalize_answer (pyStripStr " Both mention the topic. ")) :=
  ⟨(compare_defaults_missing_keys constClient (fun _ => none) ⟨none, none, none⟩ rfl rfl).1 rfl,
    (compare_defaults_missing_keys constClient cexStoreD ⟨none, none, none⟩ rfl rfl).2
      cexVsD "t0" (pyStripStr " Both mention the topic. ") rfl rfl⟩
